import Mathlib

/-!
# GoToSocial: followers paging handler, filter keyword handler, STS web identity

A shallow embedding of

* `internal/api/client/accounts/followers.go` (`AccountFollowersGETHandler`),
* `internal/api/client/filters/v2/filterkeywordpost.go`
  (`FilterKeywordPOSTHandler`, `validateNormalizeCreateUpdateFilterKeyword`),
* `vendor/github.com/minio/minio-go/v7/pkg/credentials/sts_web_identity.go`
  (`NewSTSWebIdentity`, `WithPolicy`).

A gin handler is embedded as a function from the request and the collaborators
it calls to the ordered list of calls it makes (`Event`): every call to a
collaborator and every write to the response is one event, in program order.
-/

namespace GoToSocial

/-! ## Shared data -/

/-- The `gtserror.WithCode` value: an error, its HTTP status code and the help
text shown to the caller. -/
structure WithCode where
  code : Nat
  err : String
  help : String
deriving DecidableEq, Repr

/-- Constructor `gtserror.NewErrorBadRequest(err, helpText)`: status 400. -/
def NewErrorBadRequest (err help : String) : WithCode := ⟨400, err, help⟩

/-- Constructor `gtserror.NewErrorNotAcceptable(err, helpText)`: status 406. -/
def NewErrorNotAcceptable (err help : String) : WithCode := ⟨406, err, help⟩

/-- Constructor `gtserror.NewErrorUnprocessableEntity(err, helpText)`: status 422. -/
def NewErrorUnprocessableEntity (err help : String) : WithCode := ⟨422, err, help⟩

/-- The constant `http.StatusOK`. -/
def StatusOK : Nat := 200

/-- The account of the authorized requester (`authed.Account`). -/
structure Account where
  ID : String
deriving DecidableEq, Repr

/-- The inbound request as seen through `*gin.Context`: path parameters and
query parameters, each a list of key/value pairs. -/
structure Context where
  params : List (String × String)
  query : List (String × String)
deriving DecidableEq, Repr

/-- Method `c.Param(key)`: the value of the path parameter, `""` when absent. -/
def Context.Param (c : Context) (key : String) : String :=
  match c.params.find? (fun kv => kv.1 == key) with
  | some kv => kv.2
  | none => ""

/-- Method `c.GetQuery(key)`: the first value of the query parameter, if any. -/
def Context.GetQuery (c : Context) (key : String) : Option String :=
  match c.query.find? (fun kv => kv.1 == key) with
  | some kv => some kv.2
  | none => none

/-- An identifier-keyed entity: the identifier the paging bounds compare (for
followers the ID of the follow, not of the account returned) and an opaque
payload. -/
structure Item where
  id : String
  payload : String
deriving DecidableEq, Repr

/-- Modelled from the spec: the type `paging.Page` is not under src/; this is
the spec's `PageRequest`, with optional `MinID`, `SinceID`, `MaxID` and an
integer `Limit`. -/
structure PageRequest where
  MinID : Option String
  SinceID : Option String
  MaxID : Option String
  Limit : Int
deriving DecidableEq, Repr

/-- The fields of `apimodel.PageableResponse` the handler reads. -/
structure PageableResponse where
  Items : List Item
  LinkHeader : String
  NextLink : String
  PrevLink : String
deriving DecidableEq, Repr

namespace accounts

/-- The constant `IDKey`, the name of the account-id path parameter. -/
def IDKey : String := "id"

/-- The collaborators `AccountFollowersGETHandler` calls, each as the function
of its arguments that it is for the duration of one request. -/
structure Collaborators where
  /-- The call `apiutil.TokenAuth(c, true, true, true, true, scope)`. -/
  TokenAuth : Context → String → Except WithCode Account
  /-- The call `apiutil.NegotiateAccept(c, offers...)`: the chosen format or an error. -/
  NegotiateAccept : Context → Except String String
  /-- The call `paging.ParseIDPage(c, min, max, default)`. -/
  ParseIDPage : Context → Int → Int → Int → Except WithCode PageRequest
  /-- The call `m.processor.Account().FollowersGet(ctx, requester, target, page)`. -/
  FollowersGet : Account → String → PageRequest → Except WithCode PageableResponse

/-- One observable step of the handler. -/
inductive Event where
  | tokenAuth (scope : String)
  | negotiateAccept
  | param (key : String)
  | parseIDPage (min max dflt : Int)
  | followersGet (requester : Account) (target : String) (page : PageRequest)
  | errorHandler (e : WithCode)
  | header (key value : String)
  | json (status : Nat) (body : List Item)
deriving DecidableEq, Repr

/-- The constant `apiutil.ScopeReadAccounts`. -/
def ScopeReadAccounts : String := "read:accounts"

/-- The handler `AccountFollowersGETHandler` of followers.go, lines 120-163. -/
def AccountFollowersGETHandler (m : Collaborators) (c : Context) : List Event :=
  match m.TokenAuth c ScopeReadAccounts with
  | .error errWithCode =>
    [.tokenAuth ScopeReadAccounts, .errorHandler errWithCode]
  | .ok authed =>
    match m.NegotiateAccept c with
    | .error err =>
      [.tokenAuth ScopeReadAccounts, .negotiateAccept,
       .errorHandler (NewErrorNotAcceptable err err)]
    | .ok _ =>
      let targetAcctID := c.Param IDKey
      if targetAcctID == "" then
        [.tokenAuth ScopeReadAccounts, .negotiateAccept, .param IDKey,
         .errorHandler (NewErrorBadRequest "no account id specified" "no account id specified")]
      else
        match m.ParseIDPage c 1 80 40 with
        | .error errWithCode =>
          [.tokenAuth ScopeReadAccounts, .negotiateAccept, .param IDKey,
           .parseIDPage 1 80 40, .errorHandler errWithCode]
        | .ok page =>
          match m.FollowersGet authed targetAcctID page with
          | .error errWithCode =>
            [.tokenAuth ScopeReadAccounts, .negotiateAccept, .param IDKey,
             .parseIDPage 1 80 40, .followersGet authed targetAcctID page,
             .errorHandler errWithCode]
          | .ok resp =>
            [.tokenAuth ScopeReadAccounts, .negotiateAccept, .param IDKey,
             .parseIDPage 1 80 40, .followersGet authed targetAcctID page]
            ++ (if resp.LinkHeader != "" then [.header "Link" resp.LinkHeader] else [])
            ++ [.json StatusOK resp.Items]

/-- Whether an event is a call to `FollowersGet`. -/
def Event.isFollowersGet : Event → Bool
  | .followersGet _ _ _ => true
  | _ => false

end accounts

namespace paging

/-- Modelled from the spec: the integer parser behind `paging.ParseIDPage` is
not under src/; section 4.1 says `limit` is "parsed as an integer". Digits of a
decimal numeral, most significant first, folded into their value. -/
def parseDigits : List Char → Nat → Option Nat
  | [], acc => some acc
  | ch :: cs, acc =>
    if ch.isDigit then parseDigits cs (acc * 10 + (ch.toNat - 48)) else none

/-- Modelled from the spec: the integer parser behind `paging.ParseIDPage` is
not under src/; a decimal numeral with an optional sign and at least one digit
is an integer, everything else is non-numeric. -/
def parseInt (s : String) : Option Int :=
  match s.data with
  | [] => none
  | '-' :: cs => if cs.isEmpty then none else (parseDigits cs 0).map (fun n => -(n : Int))
  | '+' :: cs => if cs.isEmpty then none else (parseDigits cs 0).map (fun n => (n : Int))
  | cs => (parseDigits cs 0).map (fun n => (n : Int))

/-- Modelled from the spec: the error kind `InvalidParameter` of section 7, a
client error (status 400) that echoes the offending value. -/
def InvalidParameter (raw : String) : WithCode :=
  NewErrorBadRequest "InvalidParameter" raw

/-- Modelled from the spec: `paging.ParseIDPage` is not under src/; section 4.1:
"If parsed value is outside `[minLimit, maxLimit]`, it is clamped (not rejected)
to the nearest bound." Section 8 says instead that a `limit` of zero or less
yields the default; nothing proved below depends on a `limit` below the minimum. -/
def clampLimit (minLimit maxLimit v : Int) : Int :=
  if v < minLimit then minLimit
  else if v > maxLimit then maxLimit
  else v

/-- Modelled from the spec: `paging.ParseIDPage` is not under src/; section 4.1:
`limit` is optional; if present it is parsed as an integer, failing with
`InvalidParameter` if non-numeric, and clamped; if absent `defaultLimit` is used. -/
def ParseLimit (c : Context) (minLimit maxLimit defaultLimit : Int) : Except WithCode Int :=
  match c.GetQuery "limit" with
  | none => .ok defaultLimit
  | some raw =>
    match parseInt raw with
    | none => .error (InvalidParameter raw)
    | some v => .ok (clampLimit minLimit maxLimit v)

/-- Modelled from the spec: `paging.ParseIDPage` is not under src/; section 4.1:
each of `min_id`, `since_id`, `max_id` is optional and, if present and
non-empty, taken verbatim as an identifier. -/
def idParam (c : Context) (key : String) : Option String :=
  match c.GetQuery key with
  | some v => if v == "" then none else some v
  | none => none

/-- Modelled from the spec: `paging.ParseIDPage` is not under src/; this is the
Page Request Parser of section 4.1, from the query parameters and
`(minLimit, maxLimit, defaultLimit)` to a `PageRequest` or a failure. -/
def ParseIDPage (c : Context) (minLimit maxLimit defaultLimit : Int) :
    Except WithCode PageRequest :=
  match ParseLimit c minLimit maxLimit defaultLimit with
  | .error e => .error e
  | .ok limit =>
    .ok { MinID := idParam c "min_id", SinceID := idParam c "since_id",
          MaxID := idParam c "max_id", Limit := limit }

/-- The direction of a fetch over the ordered identifier space. -/
inductive Direction where
  | Ascending
  | Descending
deriving DecidableEq, Repr

/-- Modelled from the spec: the `Page` of section 3, the items in the order
returned and the two navigation flags. -/
structure Page where
  Items : List Item
  Direction : Direction
  HasNext : Bool
  HasPrev : Bool
deriving DecidableEq, Repr

/-- Modelled from the spec: the Identifier Ordering of sections 2 and 3,
"comparison is lexicographic over the token's canonical encoding": the strict
lexicographic order on the characters of two identifiers. -/
def lexLess : List Char → List Char → Bool
  | _, [] => false
  | [], _ :: _ => true
  | a :: as, b :: bs =>
    decide (a.toNat < b.toNat) || (decide (a.toNat = b.toNat) && lexLess as bs)

/-- Modelled from the spec: the strict order on identifiers, `idLess a b` when
`a` is older than `b`. -/
def idLess (a b : String) : Bool := lexLess a.data b.data

/-- Modelled from the spec: the boundary semantics of section 4.2. An item is
within the bounds when its identifier is strictly less than `max_id` and
strictly greater than `since_id` and `min_id`, for each bound that is present. -/
def inBounds (req : PageRequest) (it : Item) : Bool :=
  (match req.MaxID with
   | some x => idLess it.id x
   | none => true) &&
  (match req.SinceID with
   | some x => idLess x it.id
   | none => true) &&
  (match req.MinID with
   | some x => idLess x it.id
   | none => true)

/-- Modelled from the spec: section 4.2 fetches ascending from the anchor
exactly "when only `min_id`/`since_id` is given with no `max_id`", and
descending in every other case. -/
def fetchDirection (req : PageRequest) : Direction :=
  if (req.MinID.isSome || req.SinceID.isSome) && req.MaxID.isNone then .Ascending
  else .Descending

/-- Modelled from the spec: the storage read of section 4.2, "fetch N items
from an ordered keyspace": the items within the bounds, ordered by identifier
in the fetch direction, the first `Limit + 1` of them (the lookahead fetch). -/
def fetchBatch (collection : List Item) (req : PageRequest) : List Item :=
  let matching := collection.filter (inBounds req)
  let ordered :=
    match fetchDirection req with
    | .Ascending => matching.insertionSort (fun a b : Item => idLess b.id a.id = false)
    | .Descending => matching.insertionSort (fun a b : Item => idLess a.id b.id = false)
  ordered.take (req.Limit + 1).toNat

/-- Modelled from the spec: the Page Assembler of section 4.3. The batch is
trimmed to at most `Limit` items, an ascending batch is reversed so that the
page is descending, the lookahead item sets the flag of the fetch direction,
and the other flag is set when the bound on that side was active and at least
one item was returned. -/
def assemblePage (batch : List Item) (req : PageRequest) : Page :=
  let trimmed := batch.take req.Limit.toNat
  let more := decide (req.Limit.toNat < batch.length)
  match fetchDirection req with
  | .Ascending =>
    { Items := trimmed.reverse, Direction := .Ascending,
      HasNext := req.MaxID.isSome && !trimmed.isEmpty,
      HasPrev := more }
  | .Descending =>
    { Items := trimmed, Direction := .Descending,
      HasNext := more,
      HasPrev := (req.MinID.isSome || req.SinceID.isSome) && !trimmed.isEmpty }

/-- Modelled from the spec: the "next" entry of section 4.4, present iff the
page is non-empty and `HasNext` holds; it sets `max_id` to the identifier of
the last item of the page. `renderURL` is the transport collaborator. -/
def nextLink (renderURL : List (String × String) → String) (page : Page) : String :=
  match page.Items.getLast? with
  | some last => if page.HasNext then renderURL [("max_id", last.id)] else ""
  | none => ""

/-- Modelled from the spec: the "prev" entry of section 4.4, present iff the
page is non-empty and `HasPrev` holds; it sets `min_id` to the identifier of
the first item of the page. -/
def prevLink (renderURL : List (String × String) → String) (page : Page) : String :=
  match page.Items.head? with
  | some first => if page.HasPrev then renderURL [("min_id", first.id)] else ""
  | none => ""

/-- Modelled from the spec: the header value of section 4.4, the entries that
are present, `next` before `prev`, separated by a comma. -/
def linkHeader (next prev : String) : String :=
  let entries :=
    (if next != "" then ["<" ++ next ++ ">; rel=\"next\""] else []) ++
    (if prev != "" then ["<" ++ prev ++ ">; rel=\"prev\""] else [])
  ", ".intercalate entries

/-- The storage collaborator and the account settings behind `FollowersGet`. -/
structure Store where
  /-- The follows of an account, or `StorageUnavailable`. -/
  followers : String → Except WithCode (List Item)
  /-- The setting `hide_collections` of an account. -/
  hideCollections : String → Bool
  /-- The transport collaborator that turns a parameter mapping into a URL. -/
  renderURL : List (String × String) → String

/-- Modelled from the spec: `FollowersGet` of the account processor is not
under src/; it is the pipeline of section 2: Range Query Executor (one storage
read), Page Assembler, Navigation Link Builder. A storage failure is propagated
unchanged. By the documentation of the handler, no results are returned when
the target hides its collections from another requester. -/
def FollowersGet (store : Store) (requester : Account) (targetAcctID : String)
    (req : PageRequest) : Except WithCode PageableResponse :=
  if store.hideCollections targetAcctID && requester.ID != targetAcctID then
    .ok { Items := [], LinkHeader := "", NextLink := "", PrevLink := "" }
  else
    match store.followers targetAcctID with
    | .error e => .error e
    | .ok collection =>
      let page := assemblePage (fetchBatch collection req) req
      let next := nextLink store.renderURL page
      let prev := prevLink store.renderURL page
      .ok { Items := page.Items, LinkHeader := linkHeader next prev,
            NextLink := next, PrevLink := prev }

end paging

namespace accounts

/-- The followers endpoint with its collaborators in place: the page-request
parser and the account processor over a store, behind the given authorization
and Accept negotiation. -/
def wire (store : paging.Store) (TokenAuth : Context → String → Except WithCode Account)
    (NegotiateAccept : Context → Except String String) : Collaborators :=
  { TokenAuth := TokenAuth, NegotiateAccept := NegotiateAccept,
    ParseIDPage := paging.ParseIDPage, FollowersGet := paging.FollowersGet store }

/-- An example store: five follows `A` to `E` of every account, nothing hidden. -/
def exampleStore : paging.Store :=
  { followers := fun _ =>
      .ok [⟨"A", "a"⟩, ⟨"C", "c"⟩, ⟨"B", "b"⟩, ⟨"E", "e"⟩, ⟨"D", "d"⟩],
    hideCollections := fun _ => false,
    renderURL := fun ps => "/followers?" ++ "&".intercalate (ps.map (fun kv => kv.1 ++ "=" ++ kv.2)) }

/-- An example set of collaborators: every requester is authorized as `me` and
JSON is acceptable. -/
def exampleCollaborators : Collaborators :=
  wire exampleStore (fun _ _ => .ok ⟨"me"⟩) (fun _ => .ok "application/json")

/-- An example request: followers of account `t`, older than `D`, 1000 per page. -/
def exampleRequest : Context :=
  { params := [("id", "t")], query := [("limit", "1000"), ("max_id", "D")] }

/-- An example request: followers of account `t`, older than `D`, 2 per page. -/
def pagedRequest : Context :=
  { params := [("id", "t")], query := [("limit", "2"), ("max_id", "D")] }

/-- An example request whose `limit` is not a number. -/
def badLimitRequest : Context :=
  { params := [("id", "t")], query := [("limit", "many")] }

/-- An example set of collaborators whose storage is unavailable. -/
def failingCollaborators : Collaborators :=
  wire { exampleStore with followers := fun _ => .error ⟨500, "StorageUnavailable", ""⟩ }
    (fun _ _ => .ok ⟨"me"⟩) (fun _ => .ok "application/json")

end accounts

namespace filters.v2

/-- The fields of `apimodel.FilterKeywordCreateUpdateRequest` the handler and
its validator use: the keyword text and the optional `whole_word` flag, a
`*bool` that is nil when the parameter was omitted. -/
structure FilterKeywordCreateUpdateRequest where
  Keyword : String
  WholeWord : Option Bool
deriving DecidableEq, Repr

/-- The API representation of a stored filter keyword (`apimodel.FilterKeyword`). -/
structure FilterKeyword where
  ID : String
  Keyword : String
  WholeWord : Bool
deriving DecidableEq, Repr

/-- Modelled from the spec: the helper `util.PtrOrValue` is not under src/; by
its call site and the documented `default: false` of `whole_word` it yields the
pointed-to value of a non-nil pointer and the given value for a nil one. -/
def PtrOrValue {T : Type} (t : Option T) (value : T) : T :=
  match t with
  | some v => v
  | none => value

/-- Modelled from the spec: the helper `util.Ptr` is not under src/; by its
call site it yields a fresh non-nil pointer to the given value. -/
def Ptr {T : Type} (t : T) : Option T := some t

/-- The function `validateNormalizeCreateUpdateFilterKeyword` of
filterkeywordpost.go, lines 147-155. The form is passed by pointer, so the
form after the call is returned together with the error (`none` is `nil`).
`validateFilterKeyword` is `validate.FilterKeyword`, which is not under src/
and is taken as a parameter. -/
def validateNormalizeCreateUpdateFilterKeyword (validateFilterKeyword : String → Option String)
    (form : FilterKeywordCreateUpdateRequest) :
    FilterKeywordCreateUpdateRequest × Option String :=
  match validateFilterKeyword form.Keyword with
  | some err => (form, some err)
  | none => ({ form with WholeWord := Ptr (PtrOrValue form.WholeWord false) }, none)

/-- The collaborators `FilterKeywordPOSTHandler` calls. -/
structure Collaborators where
  /-- The call `apiutil.TokenAuth(c, true, true, true, true, scope)`. -/
  TokenAuth : Context → String → Except WithCode Account
  /-- The method `authed.Account.IsMoving()`. -/
  IsMoving : Account → Bool
  /-- The call `apiutil.NegotiateAccept(c, offers...)`. -/
  NegotiateAccept : Context → Except String String
  /-- The call `apiutil.ParseID(value)`. -/
  ParseID : String → Except WithCode String
  /-- The call `c.ShouldBind(form)` on an empty form: the bound form or an error. -/
  ShouldBind : Context → Except String FilterKeywordCreateUpdateRequest
  /-- The call `validate.FilterKeyword(keyword)`: `none` is a nil error. -/
  validateFilterKeyword : String → Option String
  /-- The call `m.processor.FiltersV2().KeywordCreate(ctx, account, filterID, form)`. -/
  KeywordCreate : Account → String → FilterKeywordCreateUpdateRequest →
    Except WithCode FilterKeyword

/-- One observable step of the handler. -/
inductive Event where
  | tokenAuth (scope : String)
  | isMoving (a : Account)
  | forbiddenAfterMove
  | negotiateAccept
  | param (key : String)
  | parseID (value : String)
  | shouldBind
  | validate (form : FilterKeywordCreateUpdateRequest)
  | keywordCreate (a : Account) (filterID : String) (form : FilterKeywordCreateUpdateRequest)
  | errorHandler (e : WithCode)
  | json (status : Nat) (body : FilterKeyword)
deriving DecidableEq, Repr

/-- The constant `apiutil.ScopeWriteFilters`. -/
def ScopeWriteFilters : String := "write:filters"

/-- The constant `apiutil.IDKey`. -/
def IDKey : String := "id"

/-- The handler `FilterKeywordPOSTHandler` of filterkeywordpost.go, lines 101-145. -/
def FilterKeywordPOSTHandler (m : Collaborators) (c : Context) : List Event :=
  match m.TokenAuth c ScopeWriteFilters with
  | .error errWithCode =>
    [.tokenAuth ScopeWriteFilters, .errorHandler errWithCode]
  | .ok authed =>
    if m.IsMoving authed then
      [.tokenAuth ScopeWriteFilters, .isMoving authed, .forbiddenAfterMove]
    else
      match m.NegotiateAccept c with
      | .error err =>
        [.tokenAuth ScopeWriteFilters, .isMoving authed, .negotiateAccept,
         .errorHandler (NewErrorNotAcceptable err err)]
      | .ok _ =>
        match m.ParseID (c.Param IDKey) with
        | .error errWithCode =>
          [.tokenAuth ScopeWriteFilters, .isMoving authed, .negotiateAccept,
           .param IDKey, .parseID (c.Param IDKey), .errorHandler errWithCode]
        | .ok filterID =>
          match m.ShouldBind c with
          | .error err =>
            [.tokenAuth ScopeWriteFilters, .isMoving authed, .negotiateAccept,
             .param IDKey, .parseID (c.Param IDKey), .shouldBind,
             .errorHandler (NewErrorBadRequest err err)]
          | .ok form0 =>
            match validateNormalizeCreateUpdateFilterKeyword m.validateFilterKeyword form0 with
            | (_, some err) =>
              [.tokenAuth ScopeWriteFilters, .isMoving authed, .negotiateAccept,
               .param IDKey, .parseID (c.Param IDKey), .shouldBind, .validate form0,
               .errorHandler (NewErrorUnprocessableEntity err err)]
            | (form, none) =>
              match m.KeywordCreate authed filterID form with
              | .error errWithCode =>
                [.tokenAuth ScopeWriteFilters, .isMoving authed, .negotiateAccept,
                 .param IDKey, .parseID (c.Param IDKey), .shouldBind, .validate form0,
                 .keywordCreate authed filterID form, .errorHandler errWithCode]
              | .ok apiFilter =>
                [.tokenAuth ScopeWriteFilters, .isMoving authed, .negotiateAccept,
                 .param IDKey, .parseID (c.Param IDKey), .shouldBind, .validate form0,
                 .keywordCreate authed filterID form, .json StatusOK apiFilter]

/-- An example keyword check: the empty keyword is rejected. -/
def exampleValidate (keyword : String) : Option String :=
  if keyword == "" then some "filter keyword must be provided" else none

/-- An example set of collaborators: the requester is the account named by the
`user` path parameter, the account `moved` has moved, and no filter exists. -/
def exampleCollaborators : Collaborators :=
  { TokenAuth := fun c _ => .ok ⟨c.Param "user"⟩,
    IsMoving := fun a => a.ID == "moved",
    NegotiateAccept := fun _ => .ok "application/json",
    ParseID := fun v => .ok v,
    ShouldBind := fun _ => .ok ⟨"fnord", none⟩,
    validateFilterKeyword := exampleValidate,
    KeywordCreate := fun _ _ form => .ok ⟨"01K", form.Keyword, form.WholeWord.getD false⟩ }

/-- An example request by the moved account. -/
def movedRequest : Context :=
  { params := [("id", "01F"), ("user", "moved")], query := [] }

end filters.v2

end GoToSocial

namespace credentials

/-- The struct `WebIdentityToken`: a web identity token with expiry. -/
structure WebIdentityToken where
  Token : String
  AccessToken : String
  RefreshToken : String
  Expiry : Int
deriving DecidableEq, Repr

/-- The embedded struct `Expiry`, of which sts_web_identity.go reads the
field `expiration` (a time, here in seconds). -/
structure Expiry where
  expiration : Int
deriving DecidableEq, Repr

/-- The struct `STSWebIdentity` (sts_web_identity.go, lines 69-99). `Client` is a
pointer (nil is `none`) to an HTTP client named by a handle, and
`GetWebIDTokenExpiry` a function value (nil is `none`) of type
`func() (*WebIdentityToken, error)`: it yields a token, which carries its
expiry, or an error. -/
structure STSWebIdentity where
  toExpiry : Expiry
  Client : Option Nat
  STSEndpoint : String
  GetWebIDTokenExpiry : Option (Unit → Except String WebIdentityToken)
  RoleARN : String
  Policy : String
  roleSessionName : String
  TokenRevokeType : String

/-- The composite literal `&STSWebIdentity{STSEndpoint: ..., GetWebIDTokenExpiry: ...}`:
the two given fields, every other field at its zero value. -/
def STSWebIdentity.literal (stsEndpoint : String)
    (getWebIDTokenExpiry : Option (Unit → Except String WebIdentityToken)) : STSWebIdentity :=
  { toExpiry := ⟨0⟩, Client := none, STSEndpoint := stsEndpoint,
    GetWebIDTokenExpiry := getWebIDTokenExpiry, RoleARN := "", Policy := "",
    roleSessionName := "", TokenRevokeType := "" }

/-- The outcome of a Go call: it returns a value, or it panics. -/
inductive Outcome (α : Type) where
  | returned (value : α)
  | panicked

/-- The loop `for _, o := range opts { o(i) }` (lines 111-113). An option is a
function value `func(*STSWebIdentity)`: nil is `none`, and calling it panics; a
non-nil option receives the pointer `i` and updates the struct behind it, so it
is a function on the struct. -/
def applyOpts (i : STSWebIdentity) :
    List (Option (STSWebIdentity → STSWebIdentity)) → Outcome STSWebIdentity
  | [] => .returned i
  | none :: _ => .panicked
  | some o :: opts => applyOpts (o i) opts

/-- The function `NewSTSWebIdentity` (sts_web_identity.go, lines 103-115). When
it returns, the result is the Go pair `(*Credentials, error)`, `none` being
`nil`. `New` is the constructor `credentials.New`, which is not under src/. -/
def NewSTSWebIdentity {Credentials : Type} (New : STSWebIdentity → Credentials)
    (stsEndpoint : String)
    (getWebIDTokenExpiry : Option (Unit → Except String WebIdentityToken))
    (opts : List (Option (STSWebIdentity → STSWebIdentity))) :
    Outcome (Option Credentials × Option String) :=
  match getWebIDTokenExpiry with
  | none =>
    .returned (none, some "Web ID token and expiry retrieval function should be defined")
  | some f =>
    match applyOpts (STSWebIdentity.literal stsEndpoint (some f)) opts with
    | .panicked => .panicked
    | .returned i => .returned (some (New i), none)

/-- The option `WithPolicy` (sts_web_identity.go, lines 134-138): a non-nil
function that sets the policy. -/
def WithPolicy (policy : String) : Option (STSWebIdentity → STSWebIdentity) :=
  some (fun i => { i with Policy := policy })

/-- An example token retrieval function. -/
def exampleToken : Unit → Except String WebIdentityToken :=
  fun _ => .ok ⟨"jwt", "", "", 3600⟩

end credentials

/-! ## Theorems -/

namespace GoToSocial

namespace accounts

/-- The handler consults `ParseIDPage` only at the arguments `(c, 1, 80, 40)`:
two sets of collaborators that differ at most in `ParseIDPage`, and agree on
its value there, give the same run. -/
theorem handler_congr_parseIDPage (m : Collaborators) (c : Context)
    (parse : Context → Int → Int → Int → Except WithCode PageRequest)
    (h : parse c 1 80 40 = m.ParseIDPage c 1 80 40) :
    AccountFollowersGETHandler { m with ParseIDPage := parse } c
      = AccountFollowersGETHandler m c := by
  simp only [AccountFollowersGETHandler, h]

/-- The run of the handler on a request that passes authorization, Accept
negotiation and the account-id check, up to and including the call to
`ParseIDPage`. -/
theorem handler_reaches_parse (m : Collaborators) (c : Context) (authed : Account)
    (fmt : String) (hauth : m.TokenAuth c ScopeReadAccounts = .ok authed)
    (hacc : m.NegotiateAccept c = .ok fmt) (hid : c.Param IDKey ≠ "") :
    ∃ rest, AccountFollowersGETHandler m c =
      [.tokenAuth ScopeReadAccounts, .negotiateAccept, .param IDKey, .parseIDPage 1 80 40]
        ++ rest := by
  simp only [AccountFollowersGETHandler, hauth, hacc, beq_iff_eq, hid, if_false]
  split
  · exact ⟨_, rfl⟩
  · split
    · exact ⟨_, rfl⟩
    · exact ⟨_, by simp only [List.append_assoc, List.cons_append, List.nil_append]; rfl⟩

/-- Every call to `ParseIDPage` in a run carries the limits 1, 80 and 40. -/
theorem parse_event_limits (m : Collaborators) (c : Context) (a b d : Int)
    (h : Event.parseIDPage a b d ∈ AccountFollowersGETHandler m c) :
    a = 1 ∧ b = 80 ∧ d = 40 := by
  unfold AccountFollowersGETHandler at h
  split at h
  · simp at h
  · split at h
    · simp at h
    · simp only at h
      split at h
      · simp at h
      · split at h
        · simpa using h
        · split at h
          · simpa using h
          · split at h <;> simpa using h

/-- The run of the handler when `ParseIDPage` fails. -/
theorem run_parse_error (m : Collaborators) (c : Context) (authed : Account)
    (fmt : String) (e : WithCode) (hauth : m.TokenAuth c ScopeReadAccounts = .ok authed)
    (hacc : m.NegotiateAccept c = .ok fmt) (hid : c.Param IDKey ≠ "")
    (hparse : m.ParseIDPage c 1 80 40 = .error e) :
    AccountFollowersGETHandler m c =
      [.tokenAuth ScopeReadAccounts, .negotiateAccept, .param IDKey, .parseIDPage 1 80 40,
       .errorHandler e] := by
  simp only [AccountFollowersGETHandler, hauth, hacc, beq_iff_eq, hid, if_false, hparse]

/-- The run of the handler when `FollowersGet` fails. -/
theorem run_get_error (m : Collaborators) (c : Context) (authed : Account)
    (fmt : String) (page : PageRequest) (e : WithCode)
    (hauth : m.TokenAuth c ScopeReadAccounts = .ok authed)
    (hacc : m.NegotiateAccept c = .ok fmt) (hid : c.Param IDKey ≠ "")
    (hparse : m.ParseIDPage c 1 80 40 = .ok page)
    (hget : m.FollowersGet authed (c.Param IDKey) page = .error e) :
    AccountFollowersGETHandler m c =
      [.tokenAuth ScopeReadAccounts, .negotiateAccept, .param IDKey, .parseIDPage 1 80 40,
       .followersGet authed (c.Param IDKey) page, .errorHandler e] := by
  simp only [AccountFollowersGETHandler, hauth, hacc, beq_iff_eq, hid, if_false, hparse, hget]

/-- The run of the handler when every step succeeds. -/
theorem run_ok (m : Collaborators) (c : Context) (authed : Account)
    (fmt : String) (page : PageRequest) (resp : PageableResponse)
    (hauth : m.TokenAuth c ScopeReadAccounts = .ok authed)
    (hacc : m.NegotiateAccept c = .ok fmt) (hid : c.Param IDKey ≠ "")
    (hparse : m.ParseIDPage c 1 80 40 = .ok page)
    (hget : m.FollowersGet authed (c.Param IDKey) page = .ok resp) :
    AccountFollowersGETHandler m c =
      [.tokenAuth ScopeReadAccounts, .negotiateAccept, .param IDKey, .parseIDPage 1 80 40,
       .followersGet authed (c.Param IDKey) page]
      ++ (if resp.LinkHeader = "" then [] else [.header "Link" resp.LinkHeader])
      ++ [.json StatusOK resp.Items] := by
  simp only [AccountFollowersGETHandler, hauth, hacc, beq_iff_eq, hid, if_false, hparse, hget]
  by_cases hl : resp.LinkHeader = "" <;> simp [hl]

/-- The run of the handler when authorization fails. -/
theorem run_auth_error (m : Collaborators) (c : Context) (e : WithCode)
    (hauth : m.TokenAuth c ScopeReadAccounts = .error e) :
    AccountFollowersGETHandler m c = [.tokenAuth ScopeReadAccounts, .errorHandler e] := by
  simp only [AccountFollowersGETHandler, hauth]

/-- The run of the handler when Accept negotiation fails. -/
theorem run_accept_error (m : Collaborators) (c : Context) (authed : Account) (err : String)
    (hauth : m.TokenAuth c ScopeReadAccounts = .ok authed)
    (hacc : m.NegotiateAccept c = .error err) :
    AccountFollowersGETHandler m c =
      [.tokenAuth ScopeReadAccounts, .negotiateAccept,
       .errorHandler (NewErrorNotAcceptable err err)] := by
  simp only [AccountFollowersGETHandler, hauth, hacc]

/-- The run of the handler when no account id is given. -/
theorem run_no_id (m : Collaborators) (c : Context) (authed : Account) (fmt : String)
    (hauth : m.TokenAuth c ScopeReadAccounts = .ok authed)
    (hacc : m.NegotiateAccept c = .ok fmt) (hid : c.Param IDKey = "") :
    AccountFollowersGETHandler m c =
      [.tokenAuth ScopeReadAccounts, .negotiateAccept, .param IDKey,
       .errorHandler (NewErrorBadRequest "no account id specified" "no account id specified")] := by
  simp only [AccountFollowersGETHandler, hauth, hacc, beq_iff_eq, hid, if_true]

/-- A call to `FollowersGet` in a run is made with the page `ParseIDPage`
returned, immediately after the call to `ParseIDPage`, and is the only one. -/
theorem followersGet_event (m : Collaborators) (c : Context) (r : Account) (t : String)
    (p : PageRequest) (h : Event.followersGet r t p ∈ AccountFollowersGETHandler m c) :
    m.ParseIDPage c 1 80 40 = .ok p ∧
    ∃ post, AccountFollowersGETHandler m c =
      [.tokenAuth ScopeReadAccounts, .negotiateAccept, .param IDKey, .parseIDPage 1 80 40,
       .followersGet r t p] ++ post ∧ ∀ e ∈ post, e.isFollowersGet = false := by
  cases hauth : m.TokenAuth c ScopeReadAccounts with
  | error e => rw [run_auth_error m c e hauth] at h; simp at h
  | ok authed =>
    cases hacc : m.NegotiateAccept c with
    | error err => rw [run_accept_error m c authed err hauth hacc] at h; simp at h
    | ok fmt =>
      by_cases hid : c.Param IDKey = ""
      · rw [run_no_id m c authed fmt hauth hacc hid] at h; simp at h
      · cases hparse : m.ParseIDPage c 1 80 40 with
        | error e => rw [run_parse_error m c authed fmt e hauth hacc hid hparse] at h; simp at h
        | ok page =>
          cases hget : m.FollowersGet authed (c.Param IDKey) page with
          | error e =>
            rw [run_get_error m c authed fmt page e hauth hacc hid hparse hget] at h ⊢
            simp only [List.mem_cons, reduceCtorEq, Event.followersGet.injEq, false_or,
              List.mem_singleton, or_false, List.not_mem_nil] at h
            obtain ⟨rfl, rfl, rfl⟩ := h
            refine ⟨rfl, [_], rfl, ?_⟩
            simp [Event.isFollowersGet]
          | ok resp =>
            rw [run_ok m c authed fmt page resp hauth hacc hid hparse hget] at h ⊢
            have h2 : r = authed ∧ t = c.Param IDKey ∧ p = page := by
              by_cases hl : resp.LinkHeader = "" <;> simpa [hl] using h
            obtain ⟨rfl, rfl, rfl⟩ := h2
            refine ⟨rfl, _, by rw [List.append_assoc], ?_⟩
            intro e he
            by_cases hl : resp.LinkHeader = "" <;> simp [hl] at he
            · subst he; rfl
            · rcases he with rfl | rfl <;> rfl

/-- A run makes at most one call to `FollowersGet`. -/
theorem followersGet_at_most_once (m : Collaborators) (c : Context) :
    ((AccountFollowersGETHandler m c).filter Event.isFollowersGet).length ≤ 1 := by
  by_cases h : ∃ ev ∈ AccountFollowersGETHandler m c, ev.isFollowersGet = true
  · obtain ⟨ev, hev, hfg⟩ := h
    cases ev with
    | followersGet r t p =>
      obtain ⟨_, post, hrun, hpost⟩ := followersGet_event m c r t p hev
      have hnone : post.filter Event.isFollowersGet = [] := by
        rw [List.filter_eq_nil_iff]
        intro e he
        simp [hpost e he]
      rw [hrun, List.filter_append, hnone]
      simp [List.filter, Event.isFollowersGet]
    | _ => simp [Event.isFollowersGet] at hfg
  · have hnone : (AccountFollowersGETHandler m c).filter Event.isFollowersGet = [] := by
      rw [List.filter_eq_nil_iff]
      intro e he hfg
      exact h ⟨e, he, hfg⟩
    simp [hnone]

/-- C1: `AccountFollowersGETHandler` configures the page-request parser with
the limits its documentation promises. Every call to `ParseIDPage` in a run
carries minimum 1, maximum 80 and default 40; a request that passes
authorization, Accept negotiation and the account-id check makes that call; and
the limits are explicit arguments: the run depends on `ParseIDPage` only through
its value at `(c, 1, 80, 40)`. -/
theorem followers_parse_limits (m : Collaborators) (c : Context) :
    (∀ a b d, Event.parseIDPage a b d ∈ AccountFollowersGETHandler m c →
      a = 1 ∧ b = 80 ∧ d = 40) ∧
    (∀ authed fmt, m.TokenAuth c ScopeReadAccounts = .ok authed →
      m.NegotiateAccept c = .ok fmt → c.Param IDKey ≠ "" →
      Event.parseIDPage 1 80 40 ∈ AccountFollowersGETHandler m c) ∧
    (∀ parse : Context → Int → Int → Int → Except WithCode PageRequest,
      parse c 1 80 40 = m.ParseIDPage c 1 80 40 →
      AccountFollowersGETHandler { m with ParseIDPage := parse } c
        = AccountFollowersGETHandler m c) := by
  refine ⟨fun a b d h => parse_event_limits m c a b d h, ?_, ?_⟩
  · intro authed fmt hauth hacc hid
    obtain ⟨rest, hrest⟩ := handler_reaches_parse m c authed fmt hauth hacc hid
    rw [hrest]
    simp
  · intro parse h
    exact handler_congr_parseIDPage m c parse h

/-- The example request reaches page parsing, which is called with 1, 80, 40. -/
theorem followers_parse_limits_witness :
    Event.parseIDPage 1 80 40 ∈ AccountFollowersGETHandler exampleCollaborators exampleRequest :=
  (followers_parse_limits exampleCollaborators exampleRequest).2.1 ⟨"me"⟩ "application/json"
    rfl rfl (by decide)

/-- C2: on a request on which authorization, Accept negotiation, the
account-id check, page parsing and `FollowersGet` all succeed, the handler ends
with a JSON response of status 200 whose body is `resp.Items`, writes no other
body and calls no error handler, and sets a header exactly when
`resp.LinkHeader` is non-empty, namely `Link` to `resp.LinkHeader`. -/
theorem followers_success_response (m : Collaborators) (c : Context) (authed : Account)
    (fmt : String) (page : PageRequest) (resp : PageableResponse)
    (hauth : m.TokenAuth c ScopeReadAccounts = .ok authed)
    (hacc : m.NegotiateAccept c = .ok fmt) (hid : c.Param IDKey ≠ "")
    (hparse : m.ParseIDPage c 1 80 40 = .ok page)
    (hget : m.FollowersGet authed (c.Param IDKey) page = .ok resp) :
    (AccountFollowersGETHandler m c).getLast? = some (.json 200 resp.Items) ∧
    (∀ status body, Event.json status body ∈ AccountFollowersGETHandler m c ↔
      status = 200 ∧ body = resp.Items) ∧
    (∀ key value, Event.header key value ∈ AccountFollowersGETHandler m c ↔
      key = "Link" ∧ value = resp.LinkHeader ∧ resp.LinkHeader ≠ "") ∧
    (Event.header "Link" resp.LinkHeader ∈ AccountFollowersGETHandler m c ↔
      resp.LinkHeader ≠ "") ∧
    (∀ e, Event.errorHandler e ∉ AccountFollowersGETHandler m c) := by
  rw [run_ok m c authed fmt page resp hauth hacc hid hparse hget]
  by_cases hl : resp.LinkHeader = ""
  · simp [hl, StatusOK]
  · simp only [hl, if_false, StatusOK]
    refine ⟨by simp, ?_, ?_, by simp [hl], by simp⟩
    · intro status body
      simp
    · intro key value
      simp [hl]

/-- The example request for two items older than `D` succeeds with status 200,
the items `C` and `B`, and a `Link` header to the next page. -/
theorem followers_success_response_witness :
    (AccountFollowersGETHandler exampleCollaborators pagedRequest).getLast?
      = some (.json 200 [⟨"C", "c"⟩, ⟨"B", "b"⟩]) ∧
    Event.header "Link" "</followers?max_id=B>; rel=\"next\"" ∈
      AccountFollowersGETHandler exampleCollaborators pagedRequest :=
  have h := followers_success_response exampleCollaborators pagedRequest ⟨"me"⟩
    "application/json" ⟨none, none, some "D", 2⟩
    ⟨[⟨"C", "c"⟩, ⟨"B", "b"⟩], "</followers?max_id=B>; rel=\"next\"",
      "/followers?max_id=B", ""⟩ rfl rfl (by decide) rfl rfl
  ⟨h.1, h.2.2.2.1.mpr (by decide)⟩

/-- C3: when `ParseIDPage` returns an error the handler passes exactly that
error to the error handler, as its last step, and never calls `FollowersGet`;
in every run `FollowersGet` is called at most once, and only with the page that
`ParseIDPage` returned, right after the call to `ParseIDPage`. -/
theorem followers_parse_error_short_circuits (m : Collaborators) (c : Context) :
    (∀ authed fmt e, m.TokenAuth c ScopeReadAccounts = .ok authed →
      m.NegotiateAccept c = .ok fmt → c.Param IDKey ≠ "" →
      m.ParseIDPage c 1 80 40 = .error e →
      AccountFollowersGETHandler m c =
        [.tokenAuth ScopeReadAccounts, .negotiateAccept, .param IDKey, .parseIDPage 1 80 40,
         .errorHandler e]) ∧
    (∀ e, m.ParseIDPage c 1 80 40 = .error e →
      ∀ ev ∈ AccountFollowersGETHandler m c, ev.isFollowersGet = false) ∧
    ((AccountFollowersGETHandler m c).filter Event.isFollowersGet).length ≤ 1 ∧
    (∀ r t p, Event.followersGet r t p ∈ AccountFollowersGETHandler m c →
      m.ParseIDPage c 1 80 40 = .ok p ∧
      ∃ post, AccountFollowersGETHandler m c =
        [.tokenAuth ScopeReadAccounts, .negotiateAccept, .param IDKey, .parseIDPage 1 80 40,
         .followersGet r t p] ++ post) := by
  refine ⟨?_, ?_, followersGet_at_most_once m c, ?_⟩
  · intro authed fmt e hauth hacc hid hparse
    exact run_parse_error m c authed fmt e hauth hacc hid hparse
  · intro e hparse ev hev
    cases ev with
    | followersGet r t p =>
      have h := (followersGet_event m c r t p hev).1
      rw [hparse] at h
      cases h
    | _ => rfl
  · intro r t p h
    obtain ⟨hp, post, hrun, _⟩ := followersGet_event m c r t p h
    exact ⟨hp, post, hrun⟩

/-- The request with `limit=many` fails page parsing: the error handler gets
the parser's error and `FollowersGet` is not called. -/
theorem followers_parse_error_short_circuits_witness :
    AccountFollowersGETHandler exampleCollaborators badLimitRequest =
      [.tokenAuth ScopeReadAccounts, .negotiateAccept, .param IDKey, .parseIDPage 1 80 40,
       .errorHandler (paging.InvalidParameter "many")] ∧
    ∀ ev ∈ AccountFollowersGETHandler exampleCollaborators badLimitRequest,
      ev.isFollowersGet = false :=
  have h := followers_parse_error_short_circuits exampleCollaborators badLimitRequest
  ⟨h.1 ⟨"me"⟩ "application/json" (paging.InvalidParameter "many") rfl rfl (by decide) rfl,
   h.2.1 (paging.InvalidParameter "many") rfl⟩

/-- C4: when `FollowersGet` returns an error the handler passes that error
unchanged to the error handler, as its last step, and returns no partial
result: it sets no header and writes no JSON body. -/
theorem followers_get_error_propagates (m : Collaborators) (c : Context) (authed : Account)
    (fmt : String) (page : PageRequest) (e : WithCode)
    (hauth : m.TokenAuth c ScopeReadAccounts = .ok authed)
    (hacc : m.NegotiateAccept c = .ok fmt) (hid : c.Param IDKey ≠ "")
    (hparse : m.ParseIDPage c 1 80 40 = .ok page)
    (hget : m.FollowersGet authed (c.Param IDKey) page = .error e) :
    AccountFollowersGETHandler m c =
      [.tokenAuth ScopeReadAccounts, .negotiateAccept, .param IDKey, .parseIDPage 1 80 40,
       .followersGet authed (c.Param IDKey) page, .errorHandler e] ∧
    (∀ e2, Event.errorHandler e2 ∈ AccountFollowersGETHandler m c → e2 = e) ∧
    (∀ key value, Event.header key value ∉ AccountFollowersGETHandler m c) ∧
    (∀ status body, Event.json status body ∉ AccountFollowersGETHandler m c) := by
  rw [run_get_error m c authed fmt page e hauth hacc hid hparse hget]
  simp

/-- With the storage unavailable the example request ends in the error handler
with the storage error, and no header or body is written. -/
theorem followers_get_error_propagates_witness :
    AccountFollowersGETHandler failingCollaborators pagedRequest =
      [.tokenAuth ScopeReadAccounts, .negotiateAccept, .param IDKey, .parseIDPage 1 80 40,
       .followersGet ⟨"me"⟩ "t" ⟨none, none, some "D", 2⟩,
       .errorHandler ⟨500, "StorageUnavailable", ""⟩] :=
  (followers_get_error_propagates failingCollaborators pagedRequest ⟨"me"⟩ "application/json"
    ⟨none, none, some "D", 2⟩ ⟨500, "StorageUnavailable", ""⟩ rfl rfl (by decide) rfl rfl).1

end accounts

end GoToSocial

namespace GoToSocial

namespace filters.v2

/-- C7: `whole_word` defaults to false. When `validate.FilterKeyword` accepts
the keyword, `validateNormalizeCreateUpdateFilterKeyword` returns nil and leaves
`form.WholeWord` non-nil, holding the supplied value when one was given and
false when it was omitted, with `form.Keyword` unchanged; when the check fails
it returns that error and leaves the form unchanged. -/
theorem whole_word_defaults_false (validateFilterKeyword : String → Option String)
    (form : FilterKeywordCreateUpdateRequest) :
    (validateFilterKeyword form.Keyword = none →
      (validateNormalizeCreateUpdateFilterKeyword validateFilterKeyword form).2 = none ∧
      (validateNormalizeCreateUpdateFilterKeyword validateFilterKeyword form).1.WholeWord ≠ none ∧
      (∀ b, form.WholeWord = some b →
        (validateNormalizeCreateUpdateFilterKeyword validateFilterKeyword form).1.WholeWord
          = some b) ∧
      (form.WholeWord = none →
        (validateNormalizeCreateUpdateFilterKeyword validateFilterKeyword form).1.WholeWord
          = some false) ∧
      (validateNormalizeCreateUpdateFilterKeyword validateFilterKeyword form).1.Keyword
        = form.Keyword) ∧
    (∀ err, validateFilterKeyword form.Keyword = some err →
      validateNormalizeCreateUpdateFilterKeyword validateFilterKeyword form = (form, some err)) := by
  constructor
  · intro h
    simp only [validateNormalizeCreateUpdateFilterKeyword, h, Ptr]
    refine ⟨trivial, by simp, ?_, ?_, trivial⟩
    · intro b hb
      simp [hb, PtrOrValue]
    · intro hn
      simp [hn, PtrOrValue]
  · intro err h
    simp only [validateNormalizeCreateUpdateFilterKeyword, h]

/-- A form without `whole_word` is normalized to `whole_word = false`, and a
form with an empty keyword is rejected and left as it was. -/
theorem whole_word_defaults_false_witness :
    (validateNormalizeCreateUpdateFilterKeyword exampleValidate ⟨"fnord", none⟩).1.WholeWord
      = some false ∧
    validateNormalizeCreateUpdateFilterKeyword exampleValidate ⟨"", some true⟩
      = (⟨"", some true⟩, some "filter keyword must be provided") :=
  ⟨((whole_word_defaults_false exampleValidate ⟨"fnord", none⟩).1 rfl).2.2.2.1 rfl,
   (whole_word_defaults_false exampleValidate ⟨"", some true⟩).2
     "filter keyword must be provided" rfl⟩

/-- C8: adding a filter keyword is forbidden to moved accounts. When token
authorization succeeds and the account reports `IsMoving`, the handler responds
with `ForbiddenAfterMove` and does nothing else: no Accept negotiation, no
filter-id parsing, no form binding or validation, no call to `KeywordCreate`,
no error handler and no JSON body; the run does not depend on any of the later
collaborators. -/
theorem filter_keyword_forbidden_after_move (m : Collaborators) (c : Context)
    (authed : Account) (hauth : m.TokenAuth c ScopeWriteFilters = .ok authed)
    (hmoving : m.IsMoving authed = true) :
    FilterKeywordPOSTHandler m c =
      [.tokenAuth ScopeWriteFilters, .isMoving authed, .forbiddenAfterMove] ∧
    Event.negotiateAccept ∉ FilterKeywordPOSTHandler m c ∧
    (∀ key, Event.param key ∉ FilterKeywordPOSTHandler m c) ∧
    (∀ value, Event.parseID value ∉ FilterKeywordPOSTHandler m c) ∧
    Event.shouldBind ∉ FilterKeywordPOSTHandler m c ∧
    (∀ form, Event.validate form ∉ FilterKeywordPOSTHandler m c) ∧
    (∀ a filterID form, Event.keywordCreate a filterID form ∉ FilterKeywordPOSTHandler m c) ∧
    (∀ e, Event.errorHandler e ∉ FilterKeywordPOSTHandler m c) ∧
    (∀ status body, Event.json status body ∉ FilterKeywordPOSTHandler m c) ∧
    (∀ m2 : Collaborators, m2.TokenAuth = m.TokenAuth → m2.IsMoving = m.IsMoving →
      FilterKeywordPOSTHandler m2 c = FilterKeywordPOSTHandler m c) := by
  have hrun : ∀ m2 : Collaborators, m2.TokenAuth = m.TokenAuth → m2.IsMoving = m.IsMoving →
      FilterKeywordPOSTHandler m2 c =
        [.tokenAuth ScopeWriteFilters, .isMoving authed, .forbiddenAfterMove] := by
    intro m2 h1 h2
    simp only [FilterKeywordPOSTHandler, h1, h2, hauth, hmoving, if_true]
  rw [hrun m rfl rfl]
  refine ⟨rfl, by simp, by simp, by simp, by simp, by simp, by simp, by simp, by simp, ?_⟩
  intro m2 h1 h2
  exact hrun m2 h1 h2

/-- The request of the moved account is answered with `ForbiddenAfterMove`
right after the authorization and the check of the move. -/
theorem filter_keyword_forbidden_after_move_witness :
    FilterKeywordPOSTHandler exampleCollaborators movedRequest =
      [.tokenAuth ScopeWriteFilters, .isMoving ⟨"moved"⟩, .forbiddenAfterMove] :=
  (filter_keyword_forbidden_after_move exampleCollaborators movedRequest ⟨"moved"⟩ rfl rfl).1

end filters.v2

end GoToSocial

namespace credentials

/-- The option loop over non-nil options is a left fold: the options are
applied in the order given. -/
theorem applyOpts_map_some (fs : List (STSWebIdentity → STSWebIdentity))
    (i : STSWebIdentity) :
    applyOpts i (fs.map some) = .returned (fs.foldl (fun acc o => o acc) i) := by
  induction fs generalizing i with
  | nil => rfl
  | cons o rest ih => simp only [List.map_cons, applyOpts, List.foldl_cons, ih]

/-- The option loop panics when one of the options is nil. -/
theorem applyOpts_nil_mem (opts : List (Option (STSWebIdentity → STSWebIdentity)))
    (i : STSWebIdentity) (h : none ∈ opts) : applyOpts i opts = .panicked := by
  induction opts generalizing i with
  | nil => simp at h
  | cons o rest ih =>
    cases o with
    | none => rfl
    | some f =>
      have hrest : none ∈ rest := by simpa using h
      exact ih (f i) hrest

/-- The claim C9 as stated fails: with a token function and a nil option,
`NewSTSWebIdentity` does not return, it panics on calling the option, so it
neither returns an error nor returns credentials. -/
theorem token_retrieval_nil_option_panics :
    NewSTSWebIdentity id "https://sts.example.org" (some exampleToken) [none] = .panicked ∧
    ¬ ∃ cred, NewSTSWebIdentity id "https://sts.example.org" (some exampleToken) [none]
        = .returned (some cred, none) :=
  ⟨rfl, fun ⟨_, h⟩ => Outcome.noConfusion h⟩

/-- C9, amended: the token retrieval function is mandatory. Whatever the
options, `NewSTSWebIdentity` returns an error, and then a nil `Credentials`,
if and only if `getWebIDTokenExpiry` is nil. Otherwise, when every option is
non-nil, it returns no error and wraps the `STSWebIdentity` made of the given
endpoint and function, every other field zero, with the options applied in the
order given; an option given last overrides the earlier ones: after
`WithPolicy p` the policy is `p` and every other field is what the earlier
options left. With a token function and a nil option it panics. -/
theorem token_retrieval_mandatory {Credentials : Type} (New : STSWebIdentity → Credentials)
    (stsEndpoint : String)
    (getWebIDTokenExpiry : Option (Unit → Except String WebIdentityToken)) :
    (∀ opts, (∃ cred err, NewSTSWebIdentity New stsEndpoint getWebIDTokenExpiry opts
        = .returned (cred, some err)) ↔ getWebIDTokenExpiry = none) ∧
    (∀ opts, getWebIDTokenExpiry = none →
      NewSTSWebIdentity New stsEndpoint getWebIDTokenExpiry opts = .returned
        (none, some "Web ID token and expiry retrieval function should be defined")) ∧
    (∀ f (fs : List (STSWebIdentity → STSWebIdentity)), getWebIDTokenExpiry = some f →
      NewSTSWebIdentity New stsEndpoint getWebIDTokenExpiry (fs.map some) =
        .returned (some (New (fs.foldl (fun acc o => o acc)
          { toExpiry := ⟨0⟩, Client := none, STSEndpoint := stsEndpoint,
            GetWebIDTokenExpiry := some f, RoleARN := "", Policy := "",
            roleSessionName := "", TokenRevokeType := "" })), none)) ∧
    (∀ f (fs : List (STSWebIdentity → STSWebIdentity)) policy,
      getWebIDTokenExpiry = some f →
      NewSTSWebIdentity New stsEndpoint getWebIDTokenExpiry
          (fs.map some ++ [WithPolicy policy]) =
        .returned (some (New { fs.foldl (fun acc o => o acc)
            (STSWebIdentity.literal stsEndpoint (some f)) with Policy := policy }), none)) ∧
    (∀ f opts, getWebIDTokenExpiry = some f → none ∈ opts →
      NewSTSWebIdentity New stsEndpoint getWebIDTokenExpiry opts = .panicked) := by
  cases getWebIDTokenExpiry with
  | none =>
    refine ⟨?_, ?_, ?_, ?_, ?_⟩
    · intro opts
      exact ⟨fun _ => rfl, fun _ => ⟨none, _, rfl⟩⟩
    · intro opts _
      rfl
    · intro f fs hf
      cases hf
    · intro f fs policy hf
      cases hf
    · intro f opts hf
      cases hf
  | some g =>
    refine ⟨?_, ?_, ?_, ?_, ?_⟩
    · intro opts
      constructor
      · rintro ⟨cred, err, h⟩
        simp only [NewSTSWebIdentity] at h
        split at h
        · cases h
        · cases h
      · intro h
        cases h
    · intro opts h
      cases h
    · intro f fs hf
      cases hf
      simp only [NewSTSWebIdentity, applyOpts_map_some, STSWebIdentity.literal]
    · intro f fs policy hf
      cases hf
      have happ : fs.map some ++ [WithPolicy policy]
          = (fs ++ [fun i : STSWebIdentity => { i with Policy := policy }]).map some := by
        simp [WithPolicy]
      simp only [NewSTSWebIdentity, happ, applyOpts_map_some, List.foldl_append,
        List.foldl_cons, List.foldl_nil]
    · intro f opts hf hmem
      cases hf
      simp only [NewSTSWebIdentity, applyOpts_nil_mem opts _ hmem]

/-- With a token function and the options `WithPolicy "a"`, `WithPolicy "b"`, in
that order, the call returns no error and the wrapped identity has the policy
`b`, the given endpoint and no role. -/
theorem token_retrieval_mandatory_witness :
    NewSTSWebIdentity id "https://sts.example.org" (some exampleToken)
        ([fun i : STSWebIdentity => { i with Policy := "a" }].map some ++ [WithPolicy "b"]) =
      .returned (some { [fun i : STSWebIdentity => { i with Policy := "a" }].foldl
          (fun acc o => o acc)
          (STSWebIdentity.literal "https://sts.example.org" (some exampleToken))
        with Policy := "b" }, none) ∧
    NewSTSWebIdentity id "https://sts.example.org" (some exampleToken)
        [WithPolicy "a", WithPolicy "b"] =
      .returned (some { STSWebIdentity.literal "https://sts.example.org" (some exampleToken)
        with Policy := "b" }, none) :=
  ⟨(token_retrieval_mandatory id "https://sts.example.org" (some exampleToken)).2.2.2.1
      exampleToken [fun i : STSWebIdentity => { i with Policy := "a" }] "b" rfl, rfl⟩

end credentials

namespace GoToSocial

namespace accounts

/-- A JSON body in a run is the `Items` of the response `FollowersGet` gave for
the page `ParseIDPage` returned, with status 200. -/
theorem json_event (m : Collaborators) (c : Context) (status : Nat) (body : List Item)
    (h : Event.json status body ∈ AccountFollowersGETHandler m c) :
    ∃ authed page resp, m.ParseIDPage c 1 80 40 = .ok page ∧
      m.FollowersGet authed (c.Param IDKey) page = .ok resp ∧
      body = resp.Items ∧ status = 200 := by
  cases hauth : m.TokenAuth c ScopeReadAccounts with
  | error e => rw [run_auth_error m c e hauth] at h; simp at h
  | ok authed =>
    cases hacc : m.NegotiateAccept c with
    | error err => rw [run_accept_error m c authed err hauth hacc] at h; simp at h
    | ok fmt =>
      by_cases hid : c.Param IDKey = ""
      · rw [run_no_id m c authed fmt hauth hacc hid] at h; simp at h
      · cases hparse : m.ParseIDPage c 1 80 40 with
        | error e => rw [run_parse_error m c authed fmt e hauth hacc hid hparse] at h; simp at h
        | ok page =>
          cases hget : m.FollowersGet authed (c.Param IDKey) page with
          | error e =>
            rw [run_get_error m c authed fmt page e hauth hacc hid hparse hget] at h
            simp at h
          | ok resp =>
            rw [run_ok m c authed fmt page resp hauth hacc hid hparse hget] at h
            have h2 : status = 200 ∧ body = resp.Items := by
              by_cases hl : resp.LinkHeader = "" <;> simpa [hl, StatusOK] using h
            exact ⟨authed, page, resp, rfl, hget, h2.2, h2.1⟩

end accounts

namespace paging

/-- The character order of `lexLess` is the lexicographic order on lists of
characters. -/
theorem lexLess_iff_lex : ∀ a b : List Char, lexLess a b = true ↔ List.Lex (· < ·) a b := by
  intro a
  induction a with
  | nil =>
    intro b
    cases b with
    | nil => simp [lexLess]
    | cons y ys => simp [lexLess, List.Lex.nil]
  | cons x xs ih =>
    intro b
    cases b with
    | nil => simp [lexLess]
    | cons y ys =>
      simp only [lexLess, Bool.or_eq_true, Bool.and_eq_true, decide_eq_true_eq, ih]
      constructor
      · rintro (h | ⟨h, h2⟩)
        · exact List.Lex.rel (Char.lt_def.mpr (by simpa [Char.toNat, UInt32.lt_def] using h))
        · have hxy : x = y := Char.ext (UInt32.ext h)
          subst hxy
          exact List.Lex.cons h2
      · intro h
        cases h with
        | cons h2 => exact Or.inr ⟨rfl, h2⟩
        | rel h2 => exact Or.inl (by simpa [Char.toNat, UInt32.lt_def, Char.lt_def] using h2)

/-- The order `idLess` on identifiers is the order of strings. -/
theorem idLess_iff_lt (a b : String) : idLess a b = true ↔ a < b := by
  rw [String.lt_iff_toList_lt]
  exact lexLess_iff_lex a.data b.data

/-- Every item of a fetched batch is an item of the collection within the
bounds of the request. -/
theorem mem_fetchBatch (collection : List Item) (req : PageRequest) (it : Item)
    (h : it ∈ fetchBatch collection req) : it ∈ collection ∧ inBounds req it = true := by
  unfold fetchBatch at h
  have h1 := List.mem_of_mem_take h
  have h2 : it ∈ collection.filter (inBounds req) := by
    cases hd : fetchDirection req <;> rw [hd] at h1 <;>
      exact (List.perm_insertionSort _ _).mem_iff.mp h1
  exact List.mem_filter.mp h2

/-- Every item of an assembled page is an item of the batch. -/
theorem mem_assemblePage (batch : List Item) (req : PageRequest) (it : Item)
    (h : it ∈ (assemblePage batch req).Items) : it ∈ batch := by
  unfold assemblePage at h
  cases hd : fetchDirection req <;> rw [hd] at h <;> simp only at h
  · exact List.mem_of_mem_take (List.mem_reverse.mp h)
  · exact List.mem_of_mem_take h

/-- An item within the bounds of a request with `max_id = X` is older than `X`. -/
theorem inBounds_max (req : PageRequest) (X : String) (it : Item)
    (hmax : req.MaxID = some X) (h : inBounds req it = true) : it.id < X := by
  unfold inBounds at h
  rw [hmax] at h
  simp only [Bool.and_eq_true] at h
  exact (idLess_iff_lt it.id X).mp h.1.1

/-- Every item `FollowersGet` returns for a request with `max_id = X` is older
than `X`. -/
theorem followersGet_items_lt (store : Store) (requester : Account) (targetAcctID : String)
    (req : PageRequest) (X : String) (resp : PageableResponse)
    (hmax : req.MaxID = some X)
    (hget : FollowersGet store requester targetAcctID req = .ok resp) :
    ∀ it ∈ resp.Items, it.id < X := by
  intro it hit
  unfold FollowersGet at hget
  split at hget
  · cases hget
    simp at hit
  · split at hget
    · cases hget
    · rename_i collection _
      cases hget
      exact inBounds_max req X it hmax
        (mem_fetchBatch collection req it (mem_assemblePage _ req it hit)).2

/-- The upper bound of every successfully parsed page request is the `max_id`
parameter. -/
theorem parseIDPage_maxID (c : Context) (minLimit maxLimit defaultLimit : Int)
    (page : PageRequest) (h : ParseIDPage c minLimit maxLimit defaultLimit = .ok page) :
    page.MaxID = idParam c "max_id" := by
  unfold ParseIDPage at h
  split at h
  · cases h
  · cases h
    rfl

/-- C6: boundary exclusivity of `max_id`. Every item of a followers page
fetched with `max_id = X` is strictly older than `X`: none has an identifier
equal to `X` or greater than `X`. This holds for the response of `FollowersGet`
and for every body the followers endpoint writes for a request whose `max_id`
parameter is `X`. -/
theorem max_id_exclusive (store : Store) (X : String) :
    (∀ requester targetAcctID req resp, req.MaxID = some X →
      FollowersGet store requester targetAcctID req = .ok resp →
      ∀ it ∈ resp.Items, it.id ≠ X ∧ ¬ (X < it.id) ∧ it.id < X) ∧
    (∀ auth accept c status body, idParam c "max_id" = some X →
      accounts.Event.json status body ∈
        accounts.AccountFollowersGETHandler (accounts.wire store auth accept) c →
      ∀ it ∈ body, it.id ≠ X ∧ ¬ (X < it.id) ∧ it.id < X) := by
  have key : ∀ requester targetAcctID req resp, req.MaxID = some X →
      FollowersGet store requester targetAcctID req = .ok resp →
      ∀ it ∈ resp.Items, it.id ≠ X ∧ ¬ (X < it.id) ∧ it.id < X := by
    intro requester targetAcctID req resp hmax hget it hit
    have hlt := followersGet_items_lt store requester targetAcctID req X resp hmax hget it hit
    exact ⟨ne_of_lt hlt, not_lt_of_lt hlt, hlt⟩
  refine ⟨key, ?_⟩
  intro auth accept c status body hmax hmem
  obtain ⟨authed, page, resp, hparse, hget, hbody, _⟩ :=
    accounts.json_event (accounts.wire store auth accept) c status body hmem
  have hpage : page.MaxID = some X := by
    rw [parseIDPage_maxID c 1 80 40 page hparse]
    exact hmax
  rw [hbody]
  exact key authed (c.Param accounts.IDKey) page resp hpage hget

/-- The page of two followers older than `D` holds `C` and `B`, both older
than `D`, and it is the body the followers endpoint writes for `max_id=D`. -/
theorem max_id_exclusive_witness :
    FollowersGet accounts.exampleStore ⟨"me"⟩ "t" ⟨none, none, some "D", 2⟩ =
      .ok ⟨[⟨"C", "c"⟩, ⟨"B", "b"⟩], "</followers?max_id=B>; rel=\"next\"",
        "/followers?max_id=B", ""⟩ ∧
    (∀ it ∈ [(⟨"C", "c"⟩ : Item), ⟨"B", "b"⟩], it.id ≠ "D" ∧ ¬ ("D" < it.id) ∧ it.id < "D") ∧
    accounts.Event.json 200 [⟨"C", "c"⟩, ⟨"B", "b"⟩] ∈
      accounts.AccountFollowersGETHandler accounts.exampleCollaborators accounts.pagedRequest :=
  have hmem : accounts.Event.json 200 [⟨"C", "c"⟩, ⟨"B", "b"⟩] ∈
      accounts.AccountFollowersGETHandler accounts.exampleCollaborators accounts.pagedRequest := by
    decide
  ⟨rfl,
   (max_id_exclusive accounts.exampleStore "D").2 (fun _ _ => .ok ⟨"me"⟩)
     (fun _ => .ok "application/json") accounts.pagedRequest 200
     [⟨"C", "c"⟩, ⟨"B", "b"⟩] rfl hmem,
   hmem⟩

end paging

end GoToSocial
